import Mathlib

/-!
Verification of the crypto-aggregator ingestion pipeline and cache-backed
read path, as a shallow embedding of the Python source.

Modelling conventions:
* Python `dict`s become insertion-ordered association lists
  (`List (String × α)`) with last-write-wins insertion.
* Exceptions become `Except ClientError`; `KeyError`, `ValueError` and
  `RuntimeError` are the three constructors.
* Wall-clock time becomes an explicit tick counter: every call to
  `datetime.datetime.now` reads the current tick and advances the clock.
* HTTP traffic becomes data: each client function returns, next to its
  result, the list of network requests it issued, and takes the remote
  response as an oracle argument.
* `Decimal` prices become `Rat` (arbitrary precision, passed through).
-/

/-- Errors raised by the ingestion code: Python `KeyError` (carrying the
missing key), `ValueError` and `RuntimeError` (carrying the message). -/
inductive ClientError where
  | keyError (key : String)
  | valueError (msg : String)
  | runtimeError (msg : String)
deriving Repr, DecidableEq

/-- Embedding of `schemas.BaseCryptoPrice` (the PriceQuote of the spec).
`fetched_at` is an abstract clock tick. -/
structure BaseCryptoPrice where
  asset : String
  quote : String
  price : Rat
  source : String
  fetched_at : Nat
deriving Repr, DecidableEq

/-- One HTTP GET request: url plus query parameters. -/
structure NetRequest where
  url : String
  params : List (String × String)
deriving Repr, DecidableEq

/-- ASCII lower-casing of one character (`str.lower` on the symbols this
program handles, which are all ASCII). -/
def lowerChar (c : Char) : Char :=
  if 'A' ≤ c ∧ c ≤ 'Z' then Char.ofNat (c.toNat + 32) else c

/-- ASCII upper-casing of one character. -/
def upperChar (c : Char) : Char :=
  if 'a' ≤ c ∧ c ≤ 'z' then Char.ofNat (c.toNat - 32) else c

/-- Python `s.lower()` (ASCII). -/
def pyLower (s : String) : String := ⟨s.data.map lowerChar⟩

/-- Python `s.upper()` (ASCII). -/
def pyUpper (s : String) : String := ⟨s.data.map upperChar⟩

/-- Equality of `Except` values is decidable componentwise. -/
instance {ε α : Type} [DecidableEq ε] [DecidableEq α] : DecidableEq (Except ε α) :=
  fun a b =>
    match a, b with
    | Except.error e1, Except.error e2 =>
      if h : e1 = e2 then isTrue (by rw [h]) else isFalse (by simp [h])
    | Except.error _, Except.ok _ => isFalse (by simp)
    | Except.ok _, Except.error _ => isFalse (by simp)
    | Except.ok v1, Except.ok v2 =>
      if h : v1 = v2 then isTrue (by rw [h]) else isFalse (by simp [h])

/-- Lookup in an insertion-ordered association list (Python `d[k]` / `k in d`). -/
def dict_get (d : List (String × α)) (k : String) : Option α :=
  (d.find? (fun p => p.1 == k)).map (·.2)

/-- Python `d[k] = v`: overwrite in place if the key exists, else append. -/
def dict_insert (d : List (String × α)) (k : String) (v : α) : List (String × α) :=
  if d.any (fun p => p.1 == k) then
    d.map (fun p => if p.1 == k then (k, v) else p)
  else
    d ++ [(k, v)]

/-- Python `d.pop(k)`: the removed value and the remaining dict, or `none`
(`KeyError`) when the key is absent. -/
def dict_pop (d : List (String × α)) (k : String) : Option (α × List (String × α)) :=
  match dict_get d k with
  | none => none
  | some v => some (v, d.filter (fun p => p.1 != k))

/-- `", ".join(xs)` -/
def joinComma (xs : List String) : String :=
  String.intercalate ", " xs

/-- `COINGECKO_COIN_IDS` from `ingestion/clients.py`. -/
def COINGECKO_COIN_IDS : List (String × String) :=
  [("btc", "bitcoin"), ("eth", "ethereum")]

/-- `COINBASE_COIN_IDS` from `ingestion/clients.py`. -/
def COINBASE_COIN_IDS : List (String × String) :=
  [("btc", "BTC"), ("eth", "ETH")]

/-- `BINANCE_COIN_IDS` from `ingestion/clients.py`. -/
def BINANCE_COIN_IDS : List (String × String) :=
  [("btc", "BTC"), ("eth", "ETH")]

/-- Embedding of the `AssetMapping` dataclass. -/
structure AssetMapping where
  reverse_mapping : List (String × String)
  asset_ids : List String
  invalid_assets : List String
deriving Repr, DecidableEq

/-- The loop body of `_map_assets`, threading the three accumulators.
`id_mapping[asset.lower()]` raises `KeyError` when the lowered symbol is
not a key; a present-but-empty id is recorded in `invalid_assets`. -/
def map_assets_loop (assets : List String) (id_mapping : List (String × String))
    (rm : List (String × String)) (ids : List String) (inv : List String) :
    Except ClientError AssetMapping :=
  match assets with
  | [] => Except.ok { reverse_mapping := rm, asset_ids := ids, invalid_assets := inv }
  | asset :: rest =>
    match dict_get id_mapping (pyLower asset) with
    | none => Except.error (ClientError.keyError (pyLower asset))
    | some asset_id =>
      let inv := if asset_id = "" then inv ++ [asset] else inv
      map_assets_loop rest id_mapping
        (dict_insert rm asset_id (pyLower asset)) (ids ++ [asset_id]) inv

/-- Embedding of `_map_assets` from `ingestion/clients.py`. -/
def map_assets (assets : List String) (id_mapping : List (String × String)) :
    Except ClientError AssetMapping :=
  map_assets_loop assets id_mapping [] [] []

/-- The list comprehension in `CoinGeckoClient.get_prices`: walk the response
items in order, popping each source id from the copied reverse mapping
(`KeyError` when an id is not there), and return the quotes together with
whatever remains of the reverse mapping. -/
def geckoCollect (items : List (String × Rat)) (rmc : List (String × String))
    (dt : Nat) : Except ClientError (List BaseCryptoPrice × List (String × String)) :=
  match items with
  | [] => Except.ok ([], rmc)
  | (asset_id, p) :: rest =>
    match dict_pop rmc asset_id with
    | none => Except.error (ClientError.keyError asset_id)
    | some (sym, rmc2) =>
      match geckoCollect rest rmc2 dt with
      | Except.error e => Except.error e
      | Except.ok (qs, rmcF) =>
        Except.ok ({ asset := (pyUpper sym), quote := "USD", price := p,
                     source := "coingecko", fetched_at := dt } :: qs, rmcF)

/-- Embedding of `CoinGeckoClient.get_prices`. The `response` oracle is the
JSON body (source id, usd price) in dict order; the result pairs the issued
network requests with the outcome. One clock read happens after the request. -/
def coinGeckoGetPrices (assets : List String) (response : List (String × Rat))
    (clock : Nat) : List NetRequest × Except ClientError (List BaseCryptoPrice) :=
  let url := "https://api.coingecko.com/api/v3/simple/price"
  match map_assets assets COINGECKO_COIN_IDS with
  | Except.error e => ([], Except.error e)
  | Except.ok am =>
    if am.invalid_assets ≠ [] then
      ([], Except.error (ClientError.valueError
        ("Invalid assets for CoinGecko: f" ++ joinComma am.invalid_assets ++ ".")))
    else
      let req : NetRequest :=
        { url := url,
          params := [("ids", String.intercalate "," am.asset_ids), ("vs_currencies", "usd")] }
      let dt := clock
      match geckoCollect response am.reverse_mapping dt with
      | Except.error e => ([req], Except.error e)
      | Except.ok (results, rmcF) =>
        if rmcF ≠ [] then
          ([req], Except.error (ClientError.runtimeError
            ("Assets with invalid Coingecko asset IDs: " ++ joinComma (rmcF.map (·.2)))))
        else
          ([req], Except.ok results)

/-- Embedding of `CoinbaseClient._get_price`: membership check on the raw
symbol before the per-asset request; on success the clock advances by one
(`datetime.datetime.now` is called inside each `_get_price`). The `spot`
oracle gives the response amount per source id. -/
def coinbaseGetPrice (asset : String) (spot : String → Rat) (clock : Nat) :
    List NetRequest × Except ClientError (BaseCryptoPrice × Nat) :=
  match dict_get COINBASE_COIN_IDS asset with
  | none =>
    ([], Except.error (ClientError.valueError
      (asset ++ " is not a valid or accepted asset for Coinbase.")))
  | some asset_id =>
    let req : NetRequest :=
      { url := "https://api.coinbase.com/v2/prices/" ++ asset_id ++ "-USD/spot",
        params := [] }
    ([req], Except.ok
      ({ asset := (pyUpper asset), quote := "USD", price := spot asset_id,
         source := "coinbase", fetched_at := clock }, clock + 1))

/-- Embedding of `CoinbaseClient.get_prices`: one `_get_price` per asset,
sequentially, accumulating requests and threading the clock. -/
def coinbaseGetPrices (assets : List String) (spot : String → Rat) (clock : Nat) :
    List NetRequest × Except ClientError (List BaseCryptoPrice) :=
  match assets with
  | [] => ([], Except.ok [])
  | a :: rest =>
    match coinbaseGetPrice a spot clock with
    | (reqs, Except.error e) => (reqs, Except.error e)
    | (reqs, Except.ok (quot, clock2)) =>
      match coinbaseGetPrices rest spot clock2 with
      | (reqs2, Except.error e) => (reqs ++ reqs2, Except.error e)
      | (reqs2, Except.ok qs) => (reqs ++ reqs2, Except.ok (quot :: qs))

/-- The scan loop of `BinanceClient.get_prices`: for each ticker item, try the
remaining reverse-mapping keys in order against the `{ID}USDT` convention;
on a match emit a quote and pop the key; stop early once the mapping is
empty. Returns the quotes and the unmatched remainder. -/
def binanceScan (tickers : List (String × Rat)) (rmc : List (String × String))
    (dt : Nat) : List BaseCryptoPrice × List (String × String) :=
  match tickers with
  | [] => ([], rmc)
  | (sym, p) :: rest =>
    match rmc.find? (fun kv => sym == kv.1 ++ "USDT") with
    | some kv =>
      let rmc2 := rmc.filter (fun e => e.1 != kv.1)
      let q : BaseCryptoPrice :=
        { asset := (pyUpper kv.2), quote := "USD", price := p,
          source := "binance", fetched_at := dt }
      if rmc2 = [] then ([q], rmc2)
      else
        let r := binanceScan rest rmc2 dt
        (q :: r.1, r.2)
    | none =>
      if rmc = [] then ([], rmc)
      else binanceScan rest rmc dt

/-- Embedding of `BinanceClient.get_prices`. The single full-table request is
issued BEFORE `_map_assets` runs, so it appears in every branch. The
`tickers` oracle is the response array of (symbol, price) items. -/
def binanceGetPrices (assets : List String) (tickers : List (String × Rat))
    (clock : Nat) : List NetRequest × Except ClientError (List BaseCryptoPrice) :=
  let req : NetRequest :=
    { url := "https://api.binance.com/api/v3/ticker/price", params := [] }
  match map_assets assets BINANCE_COIN_IDS with
  | Except.error e => ([req], Except.error e)
  | Except.ok am =>
    if am.invalid_assets ≠ [] then
      ([req], Except.error (ClientError.valueError
        ("Invalid assets for Binance: f" ++ joinComma am.invalid_assets ++ ".")))
    else
      let dt := clock
      let scanned := binanceScan tickers am.reverse_mapping dt
      if scanned.2 ≠ [] then
        ([req], Except.error (ClientError.runtimeError
          ("Assets with invalid Binance asset IDs: " ++ joinComma (scanned.2.map (·.2)))))
      else
        ([req], Except.ok scanned.1)

/-- Embedding of the `models.CryptoPrice` row: the `BaseCryptoPrice` fields
plus the surrogate integer key. -/
structure CryptoPriceRecord where
  id : Nat
  asset : String
  quote : String
  price : Rat
  source : String
  fetched_at : Nat
deriving Repr, DecidableEq

/-- The `crypto_price` table plus the sequence feeding the surrogate key. -/
structure PriceStore where
  rows : List CryptoPriceRecord
  nextId : Nat
deriving Repr, DecidableEq

/-- The boolean conflict test of the unique constraint
`uq_asset_quote_source` against one incoming quote. -/
def tripleMatch (q : BaseCryptoPrice) (r : CryptoPriceRecord) : Bool :=
  r.asset == q.asset && r.quote == q.quote && r.source == q.source

/-- One row of the `INSERT ... ON CONFLICT (asset, quote, source) DO UPDATE
SET price, fetched_at` statement: insert when no row matches the triple,
else overwrite `price` and `fetched_at` of the matching row in place. -/
def upsertRow (store : PriceStore) (q : BaseCryptoPrice) : PriceStore :=
  if store.rows.any (tripleMatch q) then
    { store with
      rows := store.rows.map (fun r =>
        if tripleMatch q r then { r with price := q.price, fetched_at := q.fetched_at } else r) }
  else
    { rows := store.rows ++
        [{ id := store.nextId, asset := q.asset, quote := q.quote,
           price := q.price, source := q.source, fetched_at := q.fetched_at }],
      nextId := store.nextId + 1 }

/-- The multi-row upsert statement applied to all rows of one run. -/
def upsertAll (prices : List BaseCryptoPrice) (store : PriceStore) : PriceStore :=
  prices.foldl upsertRow store

/-- The client loop of `ingest_prices`: concatenate each client result in
turn, re-raising the first exception (later clients are not reached). -/
def gatherPrices (results : List (Except ClientError (List BaseCryptoPrice))) :
    Except ClientError (List BaseCryptoPrice) :=
  match results with
  | [] => Except.ok []
  | r :: rest =>
    match r with
    | Except.error e => Except.error e
    | Except.ok qs =>
      match gatherPrices rest with
      | Except.error e => Except.error e
      | Except.ok qs2 => Except.ok (qs ++ qs2)

/-- Embedding of `ingest_prices` from `ingestion/price_ingestion.py`, with
the outcome of each registered client's `get_prices` call as an oracle list.
The single `db.execute` of the multi-row upsert and the `db.commit` sit
after the whole loop, so a raising client leaves the store untouched. -/
def ingest_prices (results : List (Except ClientError (List BaseCryptoPrice)))
    (store : PriceStore) : PriceStore × Option ClientError :=
  match gatherPrices results with
  | Except.error e => (store, some e)
  | Except.ok prices => (upsertAll prices store, none)

/-- Resolution of one Python slice endpoint against a list of length `n`:
negative indices count from the end, then the result clamps into `[0, n]`. -/
def pyClamp (n : Int) (i : Int) : Nat :=
  (max 0 (min n (if i < 0 then n + i else i))).toNat

/-- Python `xs[start:stop]` for integer `start` and optional `stop`. -/
def pySlice (xs : List α) (start : Int) (stop : Option Int) : List α :=
  let n : Int := xs.length
  let e := match stop with
    | none => xs.length
    | some st => pyClamp n st
  (xs.take e).drop (pyClamp n start)

/-- The store query of the read path: all rows whose `asset` column equals
the upper-cased path symbol, projected to the response schema. -/
def dbQueryAsset (db : List CryptoPriceRecord) (assetUpper : String) :
    List BaseCryptoPrice :=
  (db.filter (fun r => r.asset == assetUpper)).map (fun r =>
    { asset := r.asset, quote := r.quote, price := r.price,
      source := r.source, fetched_at := r.fetched_at })

/-- The `source`/`quote` post-filters of the read path; Python `if source:`
skips the filter for an absent or empty parameter. -/
def applyFilters (rows : List BaseCryptoPrice) (source quote : Option String) :
    List BaseCryptoPrice :=
  let rows := match source with
    | none => rows
    | some s => if s = "" then rows else rows.filter (fun r => r.source == s)
  match quote with
  | none => rows
  | some q => if q = "" then rows else rows.filter (fun r => r.quote == q)

/-- The observable outcome of one `GET /prices/{asset}` request: the cache
key used, the cache content for that key after the request, and the body
(`none` is the HTTP 404 branch). -/
structure ReadResult where
  cacheKey : String
  newCache : Option (List BaseCryptoPrice)
  result : Option (List BaseCryptoPrice)
deriving Repr, DecidableEq

/-- The cache branch of the read path: on a hit the cached rows are used and
the cache entry stays as it is; on a miss the store is queried and the full
row set written back under the key. Returns (rows used, cache content after). -/
def fetchRows (db : List CryptoPriceRecord) (cache : Option (List BaseCryptoPrice))
    (assetUpper : String) : List BaseCryptoPrice × Option (List BaseCryptoPrice) :=
  match cache with
  | some cachedRows => (cachedRows, some cachedRows)
  | none =>
    let fetched := dbQueryAsset db assetUpper
    (fetched, some fetched)

/-- Embedding of `get_crypto_prices` from `api/main.py`. `cache` is the
cached row list under this asset's key (`none` on a cache miss; a cached
JSON string is always truthy, even for an empty list). Filtering, then
`rows[offset or 0 : (offset or 0) + limit if limit else None]`, then the
empty-result 404. -/
def get_crypto_prices (db : List CryptoPriceRecord)
    (cache : Option (List BaseCryptoPrice)) (asset : String)
    (source quote : Option String) (offset limit : Option Int) : ReadResult :=
  let assetUpper := (pyUpper asset)
  let key := "prices:" ++ assetUpper
  let fetched := fetchRows db cache assetUpper
  let rows := applyFilters fetched.1 source quote
  let start : Int := match offset with
    | none => 0
    | some o => o
  let stop : Option Int := match limit with
    | none => none
    | some l => if l = 0 then none else some (start + l)
  let result := pySlice rows start stop
  { cacheKey := key, newCache := fetched.2,
    result := if result = [] then none else some result }

/-- The fixed asset list the beat schedule in `worker/celery_app.py` passes
to `ingest_prices_task` every 60 seconds. -/
def beat_schedule_assets : List String := ["BTC", "ETH"]

/-- A store with one row unrelated to the triples exercised in examples. -/
def sampleStore : PriceStore :=
  { rows := [{ id := 0, asset := "XRP", quote := "USD", price := 2,
               source := "other", fetched_at := 0 }],
    nextId := 1 }

/-- A two-row table for asset FBR, mirroring the repository's API tests. -/
def twoRowStore : List CryptoPriceRecord :=
  [{ id := 0, asset := "FBR", quote := "USD", price := 5, source := "s1",
     fetched_at := 1 },
   { id := 1, asset := "FBR", quote := "EUR", price := 6, source := "s2",
     fetched_at := 1 }]

/-! ## Helper lemmas -/

theorem pyClamp_eq_min (n : Nat) (i : Int) (h : 0 ≤ i) :
    pyClamp n i = min n i.toNat := by
  unfold pyClamp
  rw [if_neg (by omega)]
  simp only [min_def, max_def]
  split_ifs <;> omega

theorem drop_min_of_length_le {α : Type} (ys : List α) (n a : Nat)
    (h : ys.length ≤ n) : ys.drop (min n a) = ys.drop a := by
  rcases le_total a n with h1 | h1
  · rw [min_eq_right h1]
  · rw [min_eq_left h1, List.drop_eq_nil_of_le h,
      List.drop_eq_nil_of_le (le_trans h h1)]

theorem take_min_length {α : Type} (xs : List α) (b : Nat) :
    xs.take (min xs.length b) = xs.take b := by
  rcases le_total b xs.length with h1 | h1
  · rw [min_eq_right h1]
  · rw [min_eq_left h1, List.take_length, List.take_of_length_le h1]

theorem pySlice_nonneg_none {α : Type} (xs : List α) (o : Int) (ho : 0 ≤ o) :
    pySlice xs o none = xs.drop o.toNat := by
  simp only [pySlice]
  rw [List.take_length, pyClamp_eq_min _ _ ho,
    drop_min_of_length_le _ _ _ (le_refl _)]

theorem pySlice_nonneg_some {α : Type} (xs : List α) (o l : Int)
    (ho : 0 ≤ o) (hl : 0 ≤ l) :
    pySlice xs o (some (o + l)) = (xs.drop o.toNat).take l.toNat := by
  simp only [pySlice]
  rw [pyClamp_eq_min _ _ ho, pyClamp_eq_min _ _ (by omega : (0 : Int) ≤ o + l),
    take_min_length,
    drop_min_of_length_le _ _ _
      (by rw [List.length_take]; exact min_le_right _ _),
    List.drop_take]
  congr 1
  omega

theorem pySlice_out_of_range {α : Type} (xs : List α) (o : Int)
    (stop : Option Int) (ho : 0 ≤ o) (h : (xs.length : Int) ≤ o) :
    pySlice xs o stop = [] := by
  simp only [pySlice]
  apply List.drop_eq_nil_of_le
  rw [pyClamp_eq_min _ _ ho, min_eq_left (by omega : xs.length ≤ o.toNat),
    List.length_take]
  exact min_le_right _ _

theorem geckoCollect_fields (items : List (String × Rat))
    (rmc : List (String × String)) (dt : Nat) (qs : List BaseCryptoPrice)
    (rmcF : List (String × String))
    (h : geckoCollect items rmc dt = Except.ok (qs, rmcF)) :
    ∀ x ∈ qs, x.quote = "USD" ∧ x.source = "coingecko" := by
  induction items generalizing rmc qs rmcF with
  | nil =>
    simp only [geckoCollect, Except.ok.injEq, Prod.mk.injEq] at h
    rw [← h.1]
    simp
  | cons item rest ih =>
    obtain ⟨aid, p⟩ := item
    rw [geckoCollect] at h
    rcases hpop : dict_pop rmc aid with _ | ⟨sym, rmc2⟩ <;>
      rw [hpop] at h <;> dsimp only at h
    · exact absurd h (by simp)
    · rcases hrec : geckoCollect rest rmc2 dt with e | ⟨qs2, rmcF2⟩ <;>
        rw [hrec] at h <;> dsimp only at h
      · exact absurd h (by simp)
      · simp only [Except.ok.injEq, Prod.mk.injEq] at h
        intro x hx
        rw [← h.1] at hx
        rcases List.mem_cons.mp hx with hx1 | hx1
        · rw [hx1]
          exact ⟨rfl, rfl⟩
        · exact ih rmc2 qs2 rmcF2 hrec x hx1

theorem filter_eq_nil_of_any_false {α : Type} {p : α → Bool} {l : List α}
    (h : l.any p = false) : l.filter p = [] := by
  induction l with
  | nil => rfl
  | cons a t ih =>
    rw [List.any_cons, Bool.or_eq_false_iff] at h
    rw [List.filter_cons, if_neg (by simp [h.1]), ih h.2]

theorem map_ite_id_of_any_false {α : Type} {p : α → Bool} {f : α → α}
    {l : List α} (h : l.any p = false) :
    l.map (fun r => if p r then f r else r) = l := by
  induction l with
  | nil => rfl
  | cons a t ih =>
    rw [List.any_cons, Bool.or_eq_false_iff] at h
    simp [h.1, ih h.2]

/-- The rows that one run writes when every client succeeded: the
concatenation of the client results in iteration order. -/
def okQuotes (results : List (Except ClientError (List BaseCryptoPrice))) :
    List BaseCryptoPrice :=
  results.foldr
    (fun r acc =>
      match r with
      | Except.ok qs => qs ++ acc
      | Except.error _ => acc) []

theorem gatherPrices_all_ok (results : List (Except ClientError (List BaseCryptoPrice)))
    (h : ∀ r ∈ results, ∃ qs, r = Except.ok qs) :
    gatherPrices results = Except.ok (okQuotes results) := by
  induction results with
  | nil => rfl
  | cons r rest ih =>
    obtain ⟨qs, hr⟩ := h r (by simp)
    subst hr
    rw [gatherPrices, ih (fun x hx => h x (by simp [hx]))]
    rfl

theorem gatherPrices_has_error (results : List (Except ClientError (List BaseCryptoPrice)))
    (h : ∃ e, Except.error e ∈ results) :
    ∃ e, gatherPrices results = Except.error e := by
  induction results with
  | nil => simp at h
  | cons r rest ih =>
    obtain ⟨e, he⟩ := h
    rcases List.mem_cons.mp he with he1 | he1
    · exact ⟨e, by simp [gatherPrices, he1.symm]⟩
    · rcases r with e2 | qs
      · exact ⟨e2, rfl⟩
      · obtain ⟨e3, he3⟩ := ih ⟨e, he1⟩
        exact ⟨e3, by simp [gatherPrices, he3]⟩

theorem geckoCollect_fetched_at (items : List (String × Rat))
    (rmc : List (String × String)) (dt : Nat) (qs : List BaseCryptoPrice)
    (rmcF : List (String × String))
    (h : geckoCollect items rmc dt = Except.ok (qs, rmcF)) :
    ∀ x ∈ qs, x.fetched_at = dt := by
  induction items generalizing rmc qs rmcF with
  | nil =>
    simp only [geckoCollect, Except.ok.injEq, Prod.mk.injEq] at h
    rw [← h.1]
    simp
  | cons item rest ih =>
    obtain ⟨aid, p⟩ := item
    rw [geckoCollect] at h
    rcases hpop : dict_pop rmc aid with _ | ⟨sym, rmc2⟩ <;>
      rw [hpop] at h <;> dsimp only at h
    · exact absurd h (by simp)
    · rcases hrec : geckoCollect rest rmc2 dt with e | ⟨qs2, rmcF2⟩ <;>
        rw [hrec] at h <;> dsimp only at h
      · exact absurd h (by simp)
      · simp only [Except.ok.injEq, Prod.mk.injEq] at h
        intro x hx
        rw [← h.1] at hx
        rcases List.mem_cons.mp hx with hx1 | hx1
        · rw [hx1]
        · exact ih rmc2 qs2 rmcF2 hrec x hx1

theorem map_assets_loop_error (table : List (String × String)) (bad : String)
    (rest : List String) (hbad : dict_get table (pyLower bad) = none) :
    ∀ (pre : List String) (rm : List (String × String)) (ids inv : List String),
      (∀ x ∈ pre, (dict_get table (pyLower x)).isSome) →
      map_assets_loop (pre ++ bad :: rest) table rm ids inv
        = Except.error (ClientError.keyError (pyLower bad)) := by
  intro pre
  induction pre with
  | nil =>
    intro rm ids inv _
    rw [List.nil_append, map_assets_loop, hbad]
  | cons a pre2 ih =>
    intro rm ids inv hpre
    obtain ⟨v, hv⟩ := Option.isSome_iff_exists.mp (hpre a (by simp))
    rw [List.cons_append, map_assets_loop, hv]
    exact ih _ _ _ (fun x hx => hpre x (by simp [hx]))

theorem map_assets_error (table : List (String × String)) (bad : String)
    (pre rest : List String) (hbad : dict_get table (pyLower bad) = none)
    (hpre : ∀ x ∈ pre, (dict_get table (pyLower x)).isSome) :
    map_assets (pre ++ bad :: rest) table
      = Except.error (ClientError.keyError (pyLower bad)) :=
  map_assets_loop_error table bad rest hbad pre [] [] [] hpre

theorem coinbaseGetPrices_prefix_error (bad : String)
    (hbad : dict_get COINBASE_COIN_IDS bad = none)
    (spot : String → Rat) (rest : List String) :
    ∀ (pre : List String) (clock : Nat),
      (∀ x ∈ pre, (dict_get COINBASE_COIN_IDS x).isSome) →
      (coinbaseGetPrices (pre ++ bad :: rest) spot clock).1.length = pre.length
      ∧ (coinbaseGetPrices (pre ++ bad :: rest) spot clock).2
          = Except.error (ClientError.valueError
              (bad ++ " is not a valid or accepted asset for Coinbase.")) := by
  intro pre
  induction pre with
  | nil =>
    intro clock _
    rw [List.nil_append, coinbaseGetPrices, coinbaseGetPrice, hbad]
    exact ⟨rfl, rfl⟩
  | cons a pre2 ih =>
    intro clock hpre
    obtain ⟨v, hv⟩ := Option.isSome_iff_exists.mp (hpre a (by simp))
    rw [List.cons_append, coinbaseGetPrices, coinbaseGetPrice, hv]
    dsimp only
    obtain ⟨ih1, ih2⟩ := ih (clock + 1) (fun x hx => hpre x (by simp [hx]))
    rcases hrec : coinbaseGetPrices (pre2 ++ bad :: rest) spot (clock + 1)
      with ⟨reqs2, r2⟩
    rw [hrec] at ih1 ih2
    subst ih2
    dsimp only
    refine ⟨?_, rfl⟩
    simp at ih1 ⊢
    omega

theorem binanceScan_fetched_at (tickers : List (String × Rat))
    (rmc : List (String × String)) (dt : Nat) :
    ∀ x ∈ (binanceScan tickers rmc dt).1, x.fetched_at = dt := by
  induction tickers generalizing rmc with
  | nil => simp [binanceScan]
  | cons item rest ih =>
    obtain ⟨sym, p⟩ := item
    rw [binanceScan]
    rcases hf : rmc.find? (fun kv => sym == kv.1 ++ "USDT") with _ | kv <;>
      rw [hf] <;> dsimp only
    · split_ifs with h0
      · simp
      · exact ih rmc
    · split_ifs with h0
      · intro x hx
        rw [List.mem_singleton.mp hx]
      · intro x hx
        rcases List.mem_cons.mp hx with hx1 | hx1
        · rw [hx1]
        · exact ih _ x hx1

theorem coinbaseGetPrices_fetched_at (assets : List String) (spot : String → Rat)
    (clock : Nat) (qs : List BaseCryptoPrice)
    (h : (coinbaseGetPrices assets spot clock).2 = Except.ok qs) :
    ∀ i (hi : i < qs.length), (qs.get ⟨i, hi⟩).fetched_at = clock + i := by
  induction assets generalizing clock qs with
  | nil =>
    simp only [coinbaseGetPrices, Except.ok.injEq] at h
    subst h
    intro i hi
    simp at hi
  | cons a rest ih =>
    rw [coinbaseGetPrices] at h
    rcases hd : dict_get COINBASE_COIN_IDS a with _ | asset_id <;>
      rw [coinbaseGetPrice, hd] at h <;> dsimp only at h
    · exact absurd h (by simp)
    · rcases hrec : coinbaseGetPrices rest spot (clock + 1) with ⟨reqs2, r2⟩
      rcases r2 with e | qs2 <;> rw [hrec] at h <;> dsimp only at h
      · exact absurd h (by simp)
      · simp only [Except.ok.injEq] at h
        subst h
        intro i hi
        match i with
        | 0 => rfl
        | Nat.succ j =>
          have := ih (clock + 1) qs2 (by rw [hrec]) j (by simpa using hi)
          simpa [Nat.add_assoc, Nat.add_comm 1 j] using this

theorem geckoCollect_length (items : List (String × Rat))
    (rmc : List (String × String)) (dt : Nat) (qs : List BaseCryptoPrice)
    (rmcF : List (String × String))
    (h : geckoCollect items rmc dt = Except.ok (qs, rmcF)) :
    qs.length = items.length := by
  induction items generalizing rmc qs rmcF with
  | nil =>
    simp only [geckoCollect, Except.ok.injEq, Prod.mk.injEq] at h
    rw [← h.1]
    rfl
  | cons item rest ih =>
    obtain ⟨aid, p⟩ := item
    rw [geckoCollect] at h
    rcases hpop : dict_pop rmc aid with _ | ⟨sym, rmc2⟩ <;>
      rw [hpop] at h <;> dsimp only at h
    · exact absurd h (by simp)
    · rcases hrec : geckoCollect rest rmc2 dt with e | ⟨qs2, rmcF2⟩ <;>
        rw [hrec] at h <;> dsimp only at h
      · exact absurd h (by simp)
      · simp only [Except.ok.injEq, Prod.mk.injEq] at h
        rw [← h.1, List.length_cons, ih rmc2 qs2 rmcF2 hrec]
        rfl


/-! ## Claims -/

/-- C1 (code bug in `_map_assets`): for a caller symbol whose lowered form is
not a key of the source table, `id_mapping[asset.lower()]` raises `KeyError`
inside the mapper itself — the map does NOT return normally with the symbol
recorded in `invalid_assets`, and the batch client crashes in the mapper
before its own `ValueError` (which the repository's tests expect). -/
theorem C1_mapper_keyerror :
    map_assets ["foo", "bar"] COINGECKO_COIN_IDS
        = Except.error (ClientError.keyError "foo")
    ∧ coinGeckoGetPrices ["foo", "bar"] [] 0
        = ([], Except.error (ClientError.keyError "foo")) := by
  exact ⟨rfl, rfl⟩

/-- C2: if any registered client's result is an error, `ingest_prices`
re-raises it and the Price Store is left completely unchanged; when every
client succeeds, the final store is the single multi-row upsert of the
concatenation of all client rows applied to the initial store — written
once per run, never incrementally per client. -/
theorem C2_ingest_atomicity (results : List (Except ClientError (List BaseCryptoPrice)))
    (store : PriceStore) :
    ((∃ e, Except.error e ∈ results) →
      ∃ e, ingest_prices results store = (store, some e))
    ∧ ((∀ r ∈ results, ∃ qs, r = Except.ok qs) →
      ingest_prices results store = (upsertAll (okQuotes results) store, none)) := by
  constructor
  · intro h
    obtain ⟨e, he⟩ := gatherPrices_has_error results h
    exact ⟨e, by simp [ingest_prices, he]⟩
  · intro h
    simp [ingest_prices, gatherPrices_all_ok results h]

/-- C2 witness: a failing client leaves a concrete store untouched; a
succeeding run writes the single upsert of all gathered rows. -/
theorem C2_ingest_atomicity_witness :
    (∃ e, ingest_prices
        [Except.ok [{ asset := "BTC", quote := "USD", price := 5,
                      source := "coinbase", fetched_at := 1 }],
         Except.error (ClientError.keyError "x")] { rows := [], nextId := 0 }
      = ({ rows := [], nextId := 0 }, some e))
    ∧ ingest_prices
        [Except.ok [{ asset := "BTC", quote := "USD", price := 5,
                      source := "coinbase", fetched_at := 1 }]] { rows := [], nextId := 0 }
      = (upsertAll (okQuotes
            [Except.ok [{ asset := "BTC", quote := "USD", price := 5,
                          source := "coinbase", fetched_at := 1 }]])
          { rows := [], nextId := 0 }, none) := by
  constructor
  · exact (C2_ingest_atomicity _ _).1 ⟨ClientError.keyError "x", by simp⟩
  · refine (C2_ingest_atomicity _ _).2 ?_
    intro r hr
    rw [List.mem_singleton.mp hr]
    exact ⟨_, rfl⟩

/-- C3 counterexample: the Binance-like client issues its single full-table
network request BEFORE validating the requested assets, so for an
unsupported symbol the request list at failure time is non-empty — the
claim that every variant fails before issuing any network call is false. -/
theorem C3_counterexample :
    binanceGetPrices ["foo"] [("BTCUSDT", 5)] 0
        = ([{ url := "https://api.binance.com/api/v3/ticker/price", params := [] }],
           Except.error (ClientError.keyError "foo"))
    ∧ ([{ url := "https://api.binance.com/api/v3/ticker/price",
          params := [] }] : List NetRequest) ≠ [] := by
  exact ⟨by decide, by simp⟩

/-- C3 (amended): with an unsupported symbol after a prefix of supported
ones, the CoinGecko-like client fails before issuing any network call (the
mapper's `KeyError` names the lowered symbol); the Coinbase-like client
fails before the network call for the unsupported asset itself but after one
request per earlier asset, with a `ValueError` naming the raw symbol; the
Binance-like client issues its single full-table request first and only then
fails with the mapper's `KeyError`. -/
theorem C3_unsupported_asset (pre rest : List String) (bad : String)
    (response tickers : List (String × Rat)) (spot : String → Rat) (clock : Nat) :
    ((∀ x ∈ pre, (dict_get COINGECKO_COIN_IDS (pyLower x)).isSome) →
      dict_get COINGECKO_COIN_IDS (pyLower bad) = none →
      coinGeckoGetPrices (pre ++ bad :: rest) response clock
        = ([], Except.error (ClientError.keyError (pyLower bad))))
    ∧ ((∀ x ∈ pre, (dict_get COINBASE_COIN_IDS x).isSome) →
      dict_get COINBASE_COIN_IDS bad = none →
      (coinbaseGetPrices (pre ++ bad :: rest) spot clock).1.length = pre.length
      ∧ (coinbaseGetPrices (pre ++ bad :: rest) spot clock).2
          = Except.error (ClientError.valueError
              (bad ++ " is not a valid or accepted asset for Coinbase.")))
    ∧ ((∀ x ∈ pre, (dict_get BINANCE_COIN_IDS (pyLower x)).isSome) →
      dict_get BINANCE_COIN_IDS (pyLower bad) = none →
      binanceGetPrices (pre ++ bad :: rest) tickers clock
        = ([{ url := "https://api.binance.com/api/v3/ticker/price", params := [] }],
           Except.error (ClientError.keyError (pyLower bad)))) := by
  refine ⟨?_, ?_, ?_⟩
  · intro hpre hbad
    simp [coinGeckoGetPrices, map_assets_error _ _ _ _ hbad hpre]
  · intro hpre hbad
    exact coinbaseGetPrices_prefix_error bad hbad spot rest pre clock hpre
  · intro hpre hbad
    simp [binanceGetPrices, map_assets_error _ _ _ _ hbad hpre]

/-- C3 witness: concrete runs with supported prefix `btc` and unsupported
symbol `foo` for all three client variants. -/
theorem C3_unsupported_asset_witness :
    coinGeckoGetPrices ["btc", "foo"] [] 0
        = ([], Except.error (ClientError.keyError "foo"))
    ∧ (coinbaseGetPrices ["btc", "foo"] (fun _ => 1) 0).1.length = 1
    ∧ (coinbaseGetPrices ["btc", "foo"] (fun _ => 1) 0).2
        = Except.error (ClientError.valueError
            "foo is not a valid or accepted asset for Coinbase.")
    ∧ binanceGetPrices ["btc", "foo"] [] 0
        = ([{ url := "https://api.binance.com/api/v3/ticker/price", params := [] }],
           Except.error (ClientError.keyError "foo")) := by
  obtain ⟨h1, h2, h3⟩ :=
    C3_unsupported_asset ["btc"] [] "foo" [] [] (fun _ => 1) 0
  obtain ⟨h2a, h2b⟩ := h2 (by decide) (by decide)
  exact ⟨h1 (by decide) (by decide), h2a, h2b, h3 (by decide) (by decide)⟩

/-- C4 counterexample: one `get_prices` invocation of the Coinbase-like
client stamps quote 1 with tick 0 and quote 2 with tick 1 — the claim that
every variant shares one timestamp across an invocation is false. -/
theorem C4_counterexample :
    (coinbaseGetPrices ["btc", "eth"] (fun _ => 1) 0).2
        = Except.ok
            [{ asset := "BTC", quote := "USD", price := 1, source := "coinbase",
               fetched_at := 0 },
             { asset := "ETH", quote := "USD", price := 1, source := "coinbase",
               fetched_at := 1 }]
    ∧ (0 : Nat) ≠ 1 := by
  exact ⟨by decide, by decide⟩

/-- C4 (amended): the CoinGecko-like and Binance-like clients read the clock
once per invocation and stamp that shared tick on every quote; the
Coinbase-like client reads the clock once per asset, so its i-th quote
carries tick `clock + i` — a fresh timestamp per individual quote. -/
theorem C4_shared_timestamp :
    (∀ (assets : List String) (response : List (String × Rat)) (clock : Nat)
        (qs : List BaseCryptoPrice),
        (coinGeckoGetPrices assets response clock).2 = Except.ok qs →
        ∀ x ∈ qs, x.fetched_at = clock)
    ∧ (∀ (assets : List String) (tickers : List (String × Rat)) (clock : Nat)
        (qs : List BaseCryptoPrice),
        (binanceGetPrices assets tickers clock).2 = Except.ok qs →
        ∀ x ∈ qs, x.fetched_at = clock)
    ∧ (∀ (assets : List String) (spot : String → Rat) (clock : Nat)
        (qs : List BaseCryptoPrice),
        (coinbaseGetPrices assets spot clock).2 = Except.ok qs →
        ∀ i (hi : i < qs.length), (qs.get ⟨i, hi⟩).fetched_at = clock + i) := by
  refine ⟨?_, ?_, ?_⟩
  · intro assets response clock qs h
    rw [coinGeckoGetPrices] at h
    rcases hm : map_assets assets COINGECKO_COIN_IDS with e | am <;>
      rw [hm] at h <;> dsimp only at h
    · simp at h
    · split_ifs at h with hinv
      rcases hc : geckoCollect response am.reverse_mapping clock
          with e | ⟨qs2, rmcF⟩ <;> rw [hc] at h <;> dsimp only at h
      · simp at h
      · split_ifs at h with hrmc
        dsimp only at h
        simp only [Except.ok.injEq] at h
        subst h
        exact geckoCollect_fetched_at response am.reverse_mapping clock qs2 rmcF hc
  · intro assets tickers clock qs h
    rw [binanceGetPrices] at h
    rcases hm : map_assets assets BINANCE_COIN_IDS with e | am <;>
      rw [hm] at h <;> dsimp only at h
    · simp at h
    · split_ifs at h with hinv hscan
      dsimp only at h
      simp only [Except.ok.injEq] at h
      subst h
      exact binanceScan_fetched_at tickers am.reverse_mapping clock
  · intro assets spot clock qs h
    exact coinbaseGetPrices_fetched_at assets spot clock qs h

/-- C4 witness: the amended behavior at concrete inputs — shared tick 3 for
CoinGecko, shared tick 4 for Binance, and tick `0 + 1` on the second
Coinbase quote. -/
theorem C4_shared_timestamp_witness :
    ({ asset := "BTC", quote := "USD", price := 5, source := "coingecko",
           fetched_at := 3 } : BaseCryptoPrice).fetched_at = 3
    ∧ ({ asset := "ETH", quote := "USD", price := 7, source := "binance",
           fetched_at := 4 } : BaseCryptoPrice).fetched_at = 4
    ∧ (([{ asset := "BTC", quote := "USD", price := 1, source := "coinbase",
           fetched_at := 0 },
         { asset := "ETH", quote := "USD", price := 1, source := "coinbase",
           fetched_at := 1 }] : List BaseCryptoPrice).get
        ⟨1, by decide⟩).fetched_at = 0 + 1 := by
  obtain ⟨h1, h2, h3⟩ := C4_shared_timestamp
  refine ⟨?_, ?_, ?_⟩
  · exact h1 ["btc", "eth"] [("bitcoin", 5), ("ethereum", 7)] 3
      [{ asset := "BTC", quote := "USD", price := 5, source := "coingecko",
         fetched_at := 3 },
       { asset := "ETH", quote := "USD", price := 7, source := "coingecko",
         fetched_at := 3 }] (by decide) _ (by simp)
  · exact h2 ["btc", "eth"] [("BTCUSDT", 5), ("ETHUSDT", 7)] 4
      [{ asset := "BTC", quote := "USD", price := 5, source := "binance",
         fetched_at := 4 },
       { asset := "ETH", quote := "USD", price := 7, source := "binance",
         fetched_at := 4 }] (by decide) _ (by simp)
  · exact h3 ["btc", "eth"] (fun _ => 1) 0
      [{ asset := "BTC", quote := "USD", price := 1, source := "coinbase",
         fetched_at := 0 },
       { asset := "ETH", quote := "USD", price := 1, source := "coinbase",
         fetched_at := 1 }] (by decide) 1 (by decide)

/-- C5: for a store with no row for the triple (asset, quote, source),
ingesting one quote for the triple appends exactly one new row carrying the
next surrogate id; ingesting a second quote for the same triple with a
different price and timestamp overwrites only `price` and `fetched_at` of
that row in place (same id, same position, no new row), leaving exactly one
row for the triple with the latest values. -/
theorem C5_upsert_latest (st : PriceStore) (a q s : String) (p1 p2 : Rat)
    (t1 t2 : Nat)
    (h : st.rows.any (tripleMatch
      { asset := a, quote := q, price := p1, source := s, fetched_at := t1 }) = false) :
    ingest_prices
        [Except.ok [{ asset := a, quote := q, price := p1, source := s,
                      fetched_at := t1 }]] st
      = ({ rows := st.rows ++
             [{ id := st.nextId, asset := a, quote := q, price := p1,
                source := s, fetched_at := t1 }],
           nextId := st.nextId + 1 }, none)
    ∧ ingest_prices
        [Except.ok [{ asset := a, quote := q, price := p2, source := s,
                      fetched_at := t2 }]]
        { rows := st.rows ++
            [{ id := st.nextId, asset := a, quote := q, price := p1,
               source := s, fetched_at := t1 }],
          nextId := st.nextId + 1 }
      = ({ rows := st.rows ++
             [{ id := st.nextId, asset := a, quote := q, price := p2,
                source := s, fetched_at := t2 }],
           nextId := st.nextId + 1 }, none)
    ∧ (st.rows ++
        ([{ id := st.nextId, asset := a, quote := q, price := p2,
            source := s, fetched_at := t2 }] : List CryptoPriceRecord)).filter
          (tripleMatch { asset := a, quote := q, price := p2, source := s,
                         fetched_at := t2 })
      = [{ id := st.nextId, asset := a, quote := q, price := p2,
           source := s, fetched_at := t2 }] := by
  have h2 : st.rows.any (tripleMatch
      { asset := a, quote := q, price := p2, source := s, fetched_at := t2 }) = false := h
  refine ⟨?_, ?_, ?_⟩
  · simp only [ingest_prices, gatherPrices, upsertAll, List.foldl]
    rw [upsertRow, if_neg (by simp [h])]
  · simp only [ingest_prices, gatherPrices, upsertAll, List.foldl]
    rw [upsertRow]
    rw [if_pos (by simp [tripleMatch])]
    simp only [List.map_append, map_ite_id_of_any_false h2]
    simp [tripleMatch]
  · rw [List.filter_append, filter_eq_nil_of_any_false h2]
    simp [tripleMatch]

/-- C5 witness: the double ingestion of (BTC, USD, coingecko) on a concrete
store holding one unrelated row. -/
theorem C5_upsert_latest_witness :
    ingest_prices
        [Except.ok [{ asset := "BTC", quote := "USD", price := 5,
                      source := "coingecko", fetched_at := 1 }]] sampleStore
      = ({ rows := sampleStore.rows ++
             [{ id := sampleStore.nextId, asset := "BTC", quote := "USD",
                price := 5, source := "coingecko", fetched_at := 1 }],
           nextId := sampleStore.nextId + 1 }, none)
    ∧ ingest_prices
        [Except.ok [{ asset := "BTC", quote := "USD", price := 7,
                      source := "coingecko", fetched_at := 2 }]]
        { rows := sampleStore.rows ++
            [{ id := sampleStore.nextId, asset := "BTC", quote := "USD",
               price := 5, source := "coingecko", fetched_at := 1 }],
          nextId := sampleStore.nextId + 1 }
      = ({ rows := sampleStore.rows ++
             [{ id := sampleStore.nextId, asset := "BTC", quote := "USD",
                price := 7, source := "coingecko", fetched_at := 2 }],
           nextId := sampleStore.nextId + 1 }, none)
    ∧ (sampleStore.rows ++
        ([{ id := sampleStore.nextId, asset := "BTC", quote := "USD",
            price := 7, source := "coingecko", fetched_at := 2 }] :
          List CryptoPriceRecord)).filter
          (tripleMatch { asset := "BTC", quote := "USD", price := 7,
                         source := "coingecko", fetched_at := 2 })
      = [{ id := sampleStore.nextId, asset := "BTC", quote := "USD",
           price := 7, source := "coingecko", fetched_at := 2 }] :=
  C5_upsert_latest sampleStore "BTC" "USD" "coingecko" 5 7 1 2 (by decide)

/-- C6 counterexample: with `offset=1&limit=0` on a two-row result set the
code treats the falsy limit as unbounded and returns the row at index 1,
although the slice `[1 : 1+0)` the claim prescribes is empty (which would
have to yield the not-found outcome). -/
theorem C6_counterexample :
    (get_crypto_prices twoRowStore none "FBR" none none (some 1) (some 0)).result
        = some ((dbQueryAsset twoRowStore "FBR").drop 1)
    ∧ ((dbQueryAsset twoRowStore "FBR").drop 1).take 0 = []
    ∧ some ((dbQueryAsset twoRowStore "FBR").drop 1) ≠ none := by
  refine ⟨by decide, by decide, by simp⟩

/-- C6 (amended): `offset` defaults to 0 and an unset limit is unbounded;
for non-negative offset and positive limit the returned slice is
`[offset : offset+limit)`; `limit=0` is treated like unset (unbounded)
rather than as an empty slice; an offset at or beyond the row count yields
the not-found outcome rather than an error; and an empty slice is always
reported as not-found, never as an empty list. -/
theorem C6_read_pagination (db : List CryptoPriceRecord)
    (cache : Option (List BaseCryptoPrice)) (a : String) (s q : Option String)
    (lopt : Option Int) (o l : Int) (ho : 0 ≤ o) (hl : 0 < l) :
    (get_crypto_prices db cache a s q none lopt
        = get_crypto_prices db cache a s q (some 0) lopt)
    ∧ (get_crypto_prices db cache a s q (some o) (some 0)
        = get_crypto_prices db cache a s q (some o) none)
    ∧ ((get_crypto_prices db cache a s q (some o) none).result
        = (if (applyFilters (fetchRows db cache (pyUpper a)).1 s q).drop o.toNat = []
           then none
           else some ((applyFilters (fetchRows db cache (pyUpper a)).1 s q).drop o.toNat)))
    ∧ ((get_crypto_prices db cache a s q (some o) (some l)).result
        = (if ((applyFilters (fetchRows db cache (pyUpper a)).1 s q).drop o.toNat).take l.toNat = []
           then none
           else some (((applyFilters (fetchRows db cache (pyUpper a)).1 s q).drop o.toNat).take l.toNat)))
    ∧ (((applyFilters (fetchRows db cache (pyUpper a)).1 s q).length : Int) ≤ o →
        (get_crypto_prices db cache a s q (some o) lopt).result = none)
    ∧ (get_crypto_prices db cache a s q (some o) lopt).result ≠ some [] := by
  refine ⟨rfl, ?_, ?_, ?_, ?_, ?_⟩
  · simp [get_crypto_prices]
  · simp only [get_crypto_prices]
    rw [pySlice_nonneg_none _ _ ho]
  · simp only [get_crypto_prices]
    rw [if_neg (by omega : ¬l = 0), pySlice_nonneg_some _ _ _ ho (by omega)]
  · intro hlen
    simp only [get_crypto_prices]
    rw [pySlice_out_of_range _ _ _ ho hlen]
    simp
  · simp only [get_crypto_prices]
    split_ifs with hres
    · simp
    · simp [hres]

/-- C6 witness: the spec's own pagination examples on the two-row FBR set —
`offset=1&limit=1` returns exactly the second row, `offset=2&limit=1`
yields not-found. -/
theorem C6_read_pagination_witness :
    (get_crypto_prices twoRowStore none "FBR" none none (some 1) (some 1)).result
        = some [{ asset := "FBR", quote := "EUR", price := 6, source := "s2",
                  fetched_at := 1 }]
    ∧ (get_crypto_prices twoRowStore none "FBR" none none (some 2) (some 1)).result
        = none := by
  constructor
  · have h := (C6_read_pagination twoRowStore none "FBR" none none (some 1) 1 1
      (by decide) (by decide)).2.2.2.1
    rw [h]
    decide
  · exact (C6_read_pagination twoRowStore none "FBR" none none (some 1) 2 1
      (by decide) (by decide)).2.2.2.2.1 (by decide)

/-- C7: a request answered from a cache entry holding exactly the store's
serialized rows for the asset and a request answered from the store return
the same outcome — same cache key, same cache content afterwards, same body
— because filtering and pagination run post-fetch on both paths. -/
theorem C7_cache_consistency (db : List CryptoPriceRecord) (asset : String)
    (s q : Option String) (o l : Option Int)
    (cache : Option (List BaseCryptoPrice))
    (h : cache = some (dbQueryAsset db (pyUpper asset))) :
    get_crypto_prices db cache asset s q o l
      = get_crypto_prices db none asset s q o l := by
  subst h
  rfl

/-- C7 witness: cache hit versus cache miss on the concrete FBR store with a
source filter. -/
theorem C7_cache_consistency_witness :
    get_crypto_prices twoRowStore (some (dbQueryAsset twoRowStore "FBR"))
        "fbr" (some "s2") none none none
      = get_crypto_prices twoRowStore none "fbr" (some "s2") none none none :=
  C7_cache_consistency twoRowStore "fbr" (some "s2") none none none _ (by decide)

/-- C8: requests whose asset path parameters agree up to letter case share
the cache key and return identical outcomes (same rows queried, same result
or not-found), for every store, cache state and filter/pagination choice. -/
theorem C8_case_insensitive (db : List CryptoPriceRecord)
    (cache : Option (List BaseCryptoPrice)) (a1 a2 : String)
    (s q : Option String) (o l : Option Int)
    (h : pyUpper a1 = pyUpper a2) :
    get_crypto_prices db cache a1 s q o l = get_crypto_prices db cache a2 s q o l := by
  unfold get_crypto_prices
  rw [h]

/-- C8 witness: `GET /prices/FbR` and `GET /prices/fbr` coincide on the
concrete FBR store. -/
theorem C8_case_insensitive_witness :
    get_crypto_prices twoRowStore none "FbR" none none none none
      = get_crypto_prices twoRowStore none "fbr" none none none none :=
  C8_case_insensitive twoRowStore none "FbR" "fbr" none none none none (by decide)

/-- C9: after processing the whole CoinGecko response item by item, if some
requested id is still left in the reverse mapping, `get_prices` fails with
the mapping error naming the unmatched caller symbols instead of returning
the partial quote list; if nothing is left, it returns exactly the
collected quotes — one per response entry — each with quote fixed to USD
and source `coingecko`. -/
theorem C9_gecko_incomplete_response (assets : List String)
    (response : List (String × Rat)) (clock : Nat) (am : AssetMapping)
    (qs : List BaseCryptoPrice) (rmcF : List (String × String))
    (hmap : map_assets assets COINGECKO_COIN_IDS = Except.ok am)
    (hinv : am.invalid_assets = [])
    (hcol : geckoCollect response am.reverse_mapping clock = Except.ok (qs, rmcF)) :
    (rmcF ≠ [] →
      (coinGeckoGetPrices assets response clock).2
        = Except.error (ClientError.runtimeError
            ("Assets with invalid Coingecko asset IDs: " ++ joinComma (rmcF.map (·.2)))))
    ∧ (rmcF = [] →
      (coinGeckoGetPrices assets response clock).2 = Except.ok qs
      ∧ qs.length = response.length
      ∧ ∀ x ∈ qs, x.quote = "USD" ∧ x.source = "coingecko") := by
  have hunfold :
      (coinGeckoGetPrices assets response clock).2
        = (if rmcF ≠ [] then
            Except.error (ClientError.runtimeError
              ("Assets with invalid Coingecko asset IDs: "
                ++ joinComma (rmcF.map (·.2))))
           else Except.ok qs) := by
    rw [coinGeckoGetPrices, hmap]
    dsimp only
    rw [if_neg (by simp [hinv]), hcol]
    dsimp only
    split_ifs with h0 <;> simp [h0]
  constructor
  · intro hne
    rw [hunfold, if_pos hne]
  · intro he
    refine ⟨by rw [hunfold, if_neg (by simp [he])], ?_, ?_⟩
    · exact geckoCollect_length response am.reverse_mapping clock qs rmcF hcol
    · exact geckoCollect_fields response am.reverse_mapping clock qs rmcF hcol

/-- C9 witness: requesting btc and eth while the response covers only
bitcoin yields the mapping error naming eth; a full response yields one
USD quote per id. -/
theorem C9_gecko_incomplete_response_witness :
    (coinGeckoGetPrices ["btc", "eth"] [("bitcoin", 5)] 0).2
        = Except.error (ClientError.runtimeError
            "Assets with invalid Coingecko asset IDs: eth")
    ∧ (coinGeckoGetPrices ["btc", "eth"] [("bitcoin", 5), ("ethereum", 7)] 0).2
        = Except.ok
            [{ asset := "BTC", quote := "USD", price := 5, source := "coingecko",
               fetched_at := 0 },
             { asset := "ETH", quote := "USD", price := 7, source := "coingecko",
               fetched_at := 0 }] := by
  constructor
  · have h := (C9_gecko_incomplete_response ["btc", "eth"] [("bitcoin", 5)] 0
      { reverse_mapping := [("bitcoin", "btc"), ("ethereum", "eth")],
        asset_ids := ["bitcoin", "ethereum"], invalid_assets := [] }
      [{ asset := "BTC", quote := "USD", price := 5, source := "coingecko",
         fetched_at := 0 }]
      [("ethereum", "eth")] (by decide) rfl (by decide)).1 (by simp)
    exact h
  · have h := (C9_gecko_incomplete_response ["btc", "eth"]
      [("bitcoin", 5), ("ethereum", 7)] 0
      { reverse_mapping := [("bitcoin", "btc"), ("ethereum", "eth")],
        asset_ids := ["bitcoin", "ethereum"], invalid_assets := [] }
      [{ asset := "BTC", quote := "USD", price := 5, source := "coingecko",
         fetched_at := 0 },
       { asset := "ETH", quote := "USD", price := 7, source := "coingecko",
         fetched_at := 0 }]
      [] (by decide) rfl (by decide)).2 rfl
    exact h.1

/-- C10: the Coinbase-like client checks membership of the raw input symbol
in its lowercase-keyed table, so any symbol that is not literally a
lowercase key — in particular the uppercase `BTC`/`ETH` that the beat
schedule passes — is rejected with a `ValueError`, even though the
lowercase forms are supported. -/
theorem C10_coinbase_case_sensitivity (spot : String → Rat) (clock : Nat) :
    (∀ asset, dict_get COINBASE_COIN_IDS asset = none →
      (coinbaseGetPrice asset spot clock).2
        = Except.error (ClientError.valueError
            (asset ++ " is not a valid or accepted asset for Coinbase.")))
    ∧ dict_get COINBASE_COIN_IDS "BTC" = none
    ∧ dict_get COINBASE_COIN_IDS "ETH" = none
    ∧ (dict_get COINBASE_COIN_IDS "btc").isSome = true
    ∧ (dict_get COINBASE_COIN_IDS "eth").isSome = true
    ∧ beat_schedule_assets = ["BTC", "ETH"]
    ∧ (coinbaseGetPrices beat_schedule_assets spot clock).2
        = Except.error (ClientError.valueError
            "BTC is not a valid or accepted asset for Coinbase.") := by
  refine ⟨?_, by decide, by decide, by decide, by decide, rfl, rfl⟩
  intro asset h
  rw [coinbaseGetPrice, h]

/-- C10 witness: the scheduler's default list against the Coinbase client at
a concrete spot oracle and clock. -/
theorem C10_coinbase_case_sensitivity_witness :
    (coinbaseGetPrice "BTC" (fun _ => (1 : Rat)) 0).2
        = Except.error (ClientError.valueError
            "BTC is not a valid or accepted asset for Coinbase.")
    ∧ (coinbaseGetPrices beat_schedule_assets (fun _ => (1 : Rat)) 0).2
        = Except.error (ClientError.valueError
            "BTC is not a valid or accepted asset for Coinbase.") := by
  obtain ⟨h1, h2, h3, h4, h5, h6, h7⟩ :=
    C10_coinbase_case_sensitivity (fun _ => (1 : Rat)) 0
  exact ⟨h1 "BTC" (by decide), h7⟩
